import Mathlib

/-!
Verification of the fixed-width Cliente record reader (`cliente_reader.py`).

Python strings are modelled as `List Char`; the Python string primitives the
reader uses (`strip`, `rstrip`, `ljust`, `upper`, `isdigit`, slicing, `int()`)
are embedded below as functions on `List Char`.  Fallible code is modelled with
`Except`; the decoded `ClienteRecord` dataclass is modelled as the ordered
association list of (field name, decoded value) pairs that the reader's
`values` dictionary builds in specification order.
-/

/-- Python whitespace predicate used by `str.strip` (ASCII fragment). -/
def pyIsSpace (c : Char) : Bool :=
  c == ' ' || c == '\t' || c == '\n' || c == '\r' || c == '\x0B' || c == '\x0C'

/-- Python `str.strip()`: drop whitespace from both ends. -/
def pyStrip (l : List Char) : List Char :=
  List.rdropWhile pyIsSpace (l.dropWhile pyIsSpace)

/-- Python `str.rstrip('\r\n')`: drop trailing CR/LF characters. -/
def pyRstripNL (l : List Char) : List Char :=
  List.rdropWhile (fun c => c == '\r' || c == '\n') l

/-- Python `str.upper()` (ASCII fragment). -/
def pyUpper (l : List Char) : List Char :=
  l.map Char.toUpper

/-- Python slice `s[a:b]` for `0 ≤ a ≤ b`. -/
def pySlice (l : List Char) (a b : Nat) : List Char :=
  (l.drop a).take (b - a)

/-- Python `str.ljust(n)`: right-pad with spaces up to length `n`. -/
def pyLjust (l : List Char) (n : Nat) : List Char :=
  l ++ List.replicate (n - l.length) ' '

/-- Python `int()` on a string of decimal digits (the reader only applies it
to digit-only strings). -/
def digitsToNat (l : List Char) : Nat :=
  l.foldl (fun a c => 10 * a + (c.toNat - '0'.toNat)) 0

/-- The number denoted by a decimal digit string, written positionally
(specification-side definition, compared with `digitsToNat`). -/
def decimalValue : List Char → Nat
  | [] => 0
  | c :: cs => (c.toNat - '0'.toNat) * 10 ^ cs.length + decimalValue cs

/-- Gregorian leap-year rule, as used by Python `datetime.date`. -/
def isLeapYear (y : Nat) : Bool :=
  y % 4 == 0 && (y % 100 != 0 || y % 400 == 0)

/-- Days in a month, as used by Python `datetime.date`. -/
def daysInMonth (y m : Nat) : Nat :=
  if m == 2 then (if isLeapYear y then 29 else 28)
  else if m == 4 || m == 6 || m == 9 || m == 11 then 30
  else 31

/-- The triples `(y, m, d)` for which Python `date(y, m, d)` succeeds
(`MINYEAR = 1`, `MAXYEAR = 9999`). -/
def validDate (y m d : Nat) : Bool :=
  decide (1 ≤ y) && decide (y ≤ 9999) &&
  decide (1 ≤ m) && decide (m ≤ 12) &&
  decide (1 ≤ d) && decide (d ≤ daysInMonth y m)

/-- A calendar date value as produced by the date field parser. -/
structure PyDate where
  year : Nat
  month : Nat
  day : Nat
deriving DecidableEq, Repr

/-- A decoded field value: one of the four semantic types of the reader. -/
inductive FieldValue where
  | str : List Char → FieldValue
  | intv : Int → FieldValue
  | boolv : Bool → FieldValue
  | datev : Option PyDate → FieldValue
deriving DecidableEq, Repr

/-- `ClienteField` dataclass: one field descriptor of the record layout. -/
structure ClienteField where
  name : String
  length : Nat
  field_type : String
  start_pos : Nat
deriving DecidableEq, Repr

/-- The truth-token list of the boolean branch of `parse_value`. -/
def truthTokens : List (List Char) :=
  ["TRUE".data, "1".data, "Y".data, "S".data, "SI".data]

/-- `ClienteField.parse_value`: parse a raw substring according to the
field's semantic type. -/
def ClienteField.parse_value (f : ClienteField) (raw : List Char) : FieldValue :=
  let clean := pyStrip raw
  if f.field_type = "integer" then
    .intv (if !clean.isEmpty && clean.all Char.isDigit then (digitsToNat clean : Int) else 0)
  else if f.field_type = "boolean" then
    .boolv (decide (pyUpper clean ∈ truthTokens) || decide (pyStrip clean = "1".data))
  else if f.field_type = "date" then
    .datev (if clean.length == 8 && clean.all Char.isDigit then
        let y := digitsToNat (pySlice clean 0 4)
        let m := digitsToNat (pySlice clean 4 6)
        let d := digitsToNat (pySlice clean 6 8)
        if validDate y m d then some ⟨y, m, d⟩ else none
      else none)
  else
    .str clean

/-- `ClienteRecordReader._define_fields`: the hard-coded field catalogue. -/
def _define_fields : List ClienteField := [
  ⟨"progressivo", 8, "alpha field", 0⟩,
  ⟨"codice", 6, "alpha field", 8⟩,
  ⟨"ragione_sociale", 80, "alpha field", 14⟩,
  ⟨"cognome", 20, "alpha field", 94⟩,
  ⟨"nome", 20, "alpha field", 114⟩,
  ⟨"indirizzo", 40, "alpha field", 134⟩,
  ⟨"citta", 40, "alpha field", 174⟩,
  ⟨"prov", 3, "alpha field", 214⟩,
  ⟨"telefono", 20, "alpha field", 217⟩,
  ⟨"telefono2", 20, "alpha field", 237⟩,
  ⟨"email", 255, "alpha field", 257⟩,
  ⟨"codice_fiscale", 16, "alpha field", 512⟩,
  ⟨"parole_chiave", 8, "integer", 528⟩,
  ⟨"partita_iva", 16, "alpha field", 536⟩,
  ⟨"bonus", 12, "integer", 552⟩,
  ⟨"libero", 2, "boolean", 564⟩,
  ⟨"cap", 5, "alpha field", 566⟩,
  ⟨"note", 255, "integer", 571⟩,
  ⟨"codice_cosmo", 6, "alpha field", 826⟩,
  ⟨"banca_cosmo", 6, "alpha field", 832⟩,
  ⟨"spedizione", 30, "alpha field", 838⟩,
  ⟨"pagamento_cosmo", 6, "alpha field", 868⟩,
  ⟨"chiuso", 2, "boolean", 874⟩,
  ⟨"codice_sponsor", 6, "alpha field", 876⟩,
  ⟨"sponsor", 2, "boolean", 882⟩,
  ⟨"saldo_sponsor", 12, "integer", 884⟩,
  ⟨"codice_doc", 8, "integer", 896⟩,
  ⟨"stato", 40, "alpha field", 904⟩,
  ⟨"scadenza_bonus", 8, "date", 944⟩,
  ⟨"trasferito_promo", 2, "boolean", 952⟩,
  ⟨"titolo", 20, "alpha field", 954⟩,
  ⟨"copiaoffertada", 2, "boolean", 974⟩,
  ⟨"codicepromo", 6, "alpha field", 976⟩,
  ⟨"promozionale", 2, "boolean", 982⟩,
  ⟨"sitointernet", 255, "integer", 984⟩,
  ⟨"indirizzofiscale", 40, "alpha field", 1239⟩,
  ⟨"cittafiscale", 40, "alpha field", 1279⟩,
  ⟨"provfiscale", 3, "alpha field", 1319⟩,
  ⟨"capfiscale", 5, "alpha field", 1322⟩,
  ⟨"nominativofiscale", 80, "alpha field", 1327⟩,
  ⟨"edificio", 20, "alpha field", 1407⟩,
  ⟨"id", 8, "integer", 1427⟩,
  ⟨"idadvplan", 8, "integer", 1435⟩,
  ⟨"varie", 255, "alpha field", 1443⟩]

/-- `self.fields` of `ClienteRecordReader.__init__`. -/
def readerFields : List ClienteField := _define_fields

/-- `self.record_length` of `ClienteRecordReader.__init__`: sum of all
field lengths. -/
def record_length : Nat := (readerFields.map ClienteField.length).sum

/-- The decoded record: the ordered (field name → decoded value) mapping
built by `ClienteRecordReader.parse_record`. -/
abbrev ClienteRecord := List (String × FieldValue)

/-- `ClienteRecordReader.parse_record`: pad a short line with spaces, then
slice and parse every field in specification order. -/
def parse_record (line : List Char) : ClienteRecord :=
  let padded := if line.length < record_length then pyLjust line record_length else line
  readerFields.map fun f =>
    (f.name, f.parse_value (pySlice padded f.start_pos (f.start_pos + f.length)))

/-- The tiling check of the field catalogue: each descriptor starts where
the previous one ended, beginning at the given offset. -/
def tilesFrom : Nat → List ClienteField → Bool
  | _, [] => true
  | ofs, f :: fs => f.start_pos == ofs && tilesFrom (ofs + f.length) fs

/-- `ClienteRecordReader.validate_record_length`: the terminator-stripped
line has exactly the expected length. -/
def validate_record_length (line : List Char) : Bool :=
  (pyRstripNL line).length == record_length

/-- The loop body of `ClienteRecordReader.read_file`, with the line counter
made explicit.  Decoding is abstracted as an `Except`-valued function to
model the `try/except` block: an `.error` is what Python surfaces as a
caught exception, recorded as a printed per-line note (line number and
message) while the loop continues. -/
def read_file_go (dec : List Char → Except String ClienteRecord) :
    Nat → List (List Char) → List ClienteRecord × List (Nat × String)
  | _, [] => ([], [])
  | n, l :: ls =>
    let rest := read_file_go dec (n + 1) ls
    let clean := pyRstripNL l
    if pyStrip clean ≠ [] then
      match dec clean with
      | .ok r => (r :: rest.1, rest.2)
      | .error e => (rest.1, (n, e) :: rest.2)
    else rest

/-- `ClienteRecordReader.read_file` over an abstract decoder, starting the
line counter at 1 as `enumerate(file, 1)` does. -/
def read_file_with (dec : List Char → Except String ClienteRecord)
    (lines : List (List Char)) : List ClienteRecord × List (Nat × String) :=
  read_file_go dec 1 lines

/-- `ClienteRecordReader.read_file` with the reader's own (total) record
decoder. -/
def read_file (lines : List (List Char)) : List ClienteRecord × List (Nat × String) :=
  read_file_with (fun l => .ok (parse_record l)) lines

/-- Specification-side description of the records a batch read yields: the
successful decodes of the non-blank lines, in input order. -/
def batchRecords (dec : List Char → Except String ClienteRecord)
    (lines : List (List Char)) : List ClienteRecord :=
  (List.enumFrom 1 lines).filterMap fun p =>
    let clean := pyRstripNL p.2
    if pyStrip clean ≠ [] then (dec clean).toOption else none

/-- Specification-side description of the error notes a batch read yields:
line number and message of every non-blank line whose decode raised, in
input order. -/
def batchErrors (dec : List Char → Except String ClienteRecord)
    (lines : List (List Char)) : List (Nat × String) :=
  (List.enumFrom 1 lines).filterMap fun p =>
    let clean := pyRstripNL p.2
    if pyStrip clean ≠ [] then
      match dec clean with
      | .ok _ => none
      | .error e => some (p.1, e)
    else none

/-- Claim C1: the hard-coded Field Specification tiles the record: the first
descriptor starts at offset 0, each later descriptor starts where the
previous one ended, and the reader's total record length is the sum of all
44 field lengths. -/
theorem fieldSpec_tiling_invariant :
    tilesFrom 0 readerFields = true ∧
    readerFields.length = 44 ∧
    record_length = (readerFields.map ClienteField.length).sum := by
  refine ⟨by decide, by decide, rfl⟩

theorem dropWhile_head_false {q : Char → Bool} :
    ∀ {l : List Char} {c : Char} {rest : List Char},
      l.dropWhile q = c :: rest → q c = false := by
  intro l
  induction l with
  | nil => intro c rest h; simp [List.dropWhile] at h
  | cons a t ih =>
    intro c rest h
    rw [List.dropWhile_cons] at h
    by_cases ha : q a = true
    · rw [if_pos ha] at h; exact ih h
    · rw [if_neg ha] at h
      cases h
      simpa using ha

theorem dropWhile_decomp {q : Char → Bool} (l : List Char) :
    ∃ t, l = t ++ l.dropWhile q := by
  induction l with
  | nil => exact ⟨[], rfl⟩
  | cons a t ih =>
    by_cases ha : q a = true
    · obtain ⟨u, hu⟩ := ih
      refine ⟨a :: u, ?_⟩
      rw [List.dropWhile_cons, if_pos ha]
      simpa using hu
    · exact ⟨[], by rw [List.dropWhile_cons, if_neg ha]; rfl⟩

theorem pyStrip_decomp (l : List Char) :
    ∃ t, l.dropWhile pyIsSpace = pyStrip l ++ t := by
  obtain ⟨u, hu⟩ := dropWhile_decomp (q := pyIsSpace) (l.dropWhile pyIsSpace).reverse
  refine ⟨u.reverse, ?_⟩
  unfold pyStrip List.rdropWhile
  conv_lhs => rw [← List.reverse_reverse (l.dropWhile pyIsSpace), hu]
  rw [List.reverse_append]

theorem pyStrip_head_false {l : List Char} {c : Char} {rest : List Char}
    (h : pyStrip l = c :: rest) : pyIsSpace c = false := by
  obtain ⟨t, ht⟩ := pyStrip_decomp l
  rw [h] at ht
  exact dropWhile_head_false ht

theorem pyStrip_getLast_false {l : List Char} {c : Char}
    (h : (pyStrip l).getLast? = some c) : pyIsSpace c = false := by
  unfold pyStrip List.rdropWhile at h
  rw [List.getLast?_reverse] at h
  rcases hD : (l.dropWhile pyIsSpace).reverse.dropWhile pyIsSpace with _ | ⟨d, rest⟩
  · rw [hD] at h; simp at h
  · rw [hD] at h
    simp only [List.head?_cons, Option.some_inj] at h
    subst h
    exact dropWhile_head_false hD

theorem pyStrip_length_le (l : List Char) : (pyStrip l).length ≤ l.length := by
  unfold pyStrip List.rdropWhile
  calc ((l.dropWhile pyIsSpace).reverse.dropWhile pyIsSpace).reverse.length
      = ((l.dropWhile pyIsSpace).reverse.dropWhile pyIsSpace).length := by
        rw [List.length_reverse]
    _ ≤ (l.dropWhile pyIsSpace).reverse.length := (List.dropWhile_sublist _).length_le
    _ = (l.dropWhile pyIsSpace).length := by rw [List.length_reverse]
    _ ≤ l.length := (List.dropWhile_sublist _).length_le

theorem dropWhile_pyStrip_eq (l : List Char) :
    (pyStrip l).dropWhile pyIsSpace = pyStrip l := by
  rcases h : pyStrip l with _ | ⟨c, rest⟩
  · rfl
  · rw [List.dropWhile_cons, if_neg (by simp [pyStrip_head_false h])]

theorem pyStrip_idem (l : List Char) : pyStrip (pyStrip l) = pyStrip l := by
  show List.rdropWhile pyIsSpace ((pyStrip l).dropWhile pyIsSpace) = pyStrip l
  rw [dropWhile_pyStrip_eq]
  unfold pyStrip
  exact List.rdropWhile_idempotent pyIsSpace (l.dropWhile pyIsSpace)

theorem digitsToNat_go (l : List Char) :
    ∀ a, l.foldl (fun a c => 10 * a + (c.toNat - '0'.toNat)) a =
      a * 10 ^ l.length + decimalValue l := by
  induction l with
  | nil => intro a; simp [decimalValue]
  | cons c cs ih =>
    intro a
    rw [List.foldl_cons, ih, decimalValue]
    simp [List.length_cons, pow_succ]
    ring

theorem digitsToNat_eq_decimalValue (l : List Char) :
    digitsToNat l = decimalValue l := by
  unfold digitsToNat
  rw [digitsToNat_go]
  simp

/-- Claim C2: integer-field decoding strips surrounding whitespace and, when
the remaining string is non-empty and all decimal digits, returns the number
that digit string denotes; on every other input it returns zero.  The
embedded parser is a total function, so it never raises. -/
theorem parse_value_integer_spec (f : ClienteField) (raw : List Char)
    (hf : f.field_type = "integer") :
    f.parse_value raw =
      .intv (if pyStrip raw ≠ [] ∧ (pyStrip raw).all Char.isDigit then
        (decimalValue (pyStrip raw) : Int) else 0) := by
  unfold ClienteField.parse_value
  rw [if_pos hf]
  by_cases h1 : pyStrip raw = []
  · simp [h1]
  · by_cases h2 : (pyStrip raw).all Char.isDigit = true
    · simp [h1, h2, List.isEmpty_iff, digitsToNat_eq_decimalValue]
    · simp [h1, h2, List.isEmpty_iff]

theorem parse_value_integer_spec_witness :
    (⟨"parole_chiave", 8, "integer", 528⟩ : ClienteField).field_type = "integer" ∧
    (⟨"parole_chiave", 8, "integer", 528⟩ : ClienteField).parse_value " 123 ".data =
      .intv (if pyStrip " 123 ".data ≠ [] ∧ (pyStrip " 123 ".data).all Char.isDigit then
        (decimalValue (pyStrip " 123 ".data) : Int) else 0) :=
  ⟨rfl, parse_value_integer_spec _ " 123 ".data rfl⟩

theorem pyStrip_headq_false {l : List Char} {c : Char}
    (h : (pyStrip l).head? = some c) : pyIsSpace c = false := by
  rcases hs : pyStrip l with _ | ⟨d, rest⟩
  · rw [hs] at h; simp at h
  · rw [hs] at h
    simp only [List.head?_cons, Option.some_inj] at h
    subst h
    exact pyStrip_head_false hs

theorem parse_value_boolean_eq (f : ClienteField) (raw : List Char)
    (hf : f.field_type = "boolean") :
    f.parse_value raw =
      .boolv (decide (pyUpper (pyStrip raw) ∈ truthTokens) ||
        decide (pyStrip raw = "1".data)) := by
  unfold ClienteField.parse_value
  rw [if_neg (by rw [hf]; decide), if_pos hf]
  simp only [pyStrip_idem]

theorem parse_value_date_eq (f : ClienteField) (raw : List Char)
    (hf : f.field_type = "date") :
    f.parse_value raw =
      .datev (if (pyStrip raw).length == 8 && (pyStrip raw).all Char.isDigit then
          (if validDate (digitsToNat (pySlice (pyStrip raw) 0 4))
              (digitsToNat (pySlice (pyStrip raw) 4 6))
              (digitsToNat (pySlice (pyStrip raw) 6 8)) then
            some ⟨digitsToNat (pySlice (pyStrip raw) 0 4),
                  digitsToNat (pySlice (pyStrip raw) 4 6),
                  digitsToNat (pySlice (pyStrip raw) 6 8)⟩
          else none)
        else none) := by
  unfold ClienteField.parse_value
  rw [if_neg (by rw [hf]; decide), if_neg (by rw [hf]; decide), if_pos hf]

theorem parse_value_alpha_eq (f : ClienteField) (raw : List Char)
    (h1 : ¬f.field_type = "integer") (h2 : ¬f.field_type = "boolean")
    (h3 : ¬f.field_type = "date") :
    f.parse_value raw = .str (pyStrip raw) := by
  unfold ClienteField.parse_value
  rw [if_neg h1, if_neg h2, if_neg h3]

/-- Claim C6: boolean-field decoding strips surrounding whitespace and
returns true exactly when the upper-cased trimmed value is one of the truth
tokens or the trimmed value equals the literal "1"; concretely, " 1"
decodes to true and "NO" to false. -/
theorem parse_value_boolean_spec :
    (∀ (f : ClienteField) (raw : List Char) (b : Bool), f.field_type = "boolean" →
      f.parse_value raw = .boolv b →
      (b = true ↔ (pyUpper (pyStrip raw) ∈ truthTokens ∨ pyStrip raw = "1".data))) ∧
    (⟨"libero", 2, "boolean", 564⟩ : ClienteField).parse_value " 1".data = .boolv true ∧
    (⟨"libero", 2, "boolean", 564⟩ : ClienteField).parse_value "NO".data = .boolv false := by
  refine ⟨?_, by decide, by decide⟩
  intro f raw b hf hp
  rw [parse_value_boolean_eq f raw hf] at hp
  simp only [FieldValue.boolv.injEq] at hp
  subst hp
  simp

theorem parse_value_boolean_spec_witness :
    (⟨"chiuso", 2, "boolean", 874⟩ : ClienteField).field_type = "boolean" ∧
    (⟨"chiuso", 2, "boolean", 874⟩ : ClienteField).parse_value " SI ".data = .boolv true ∧
    (true = true ↔
      (pyUpper (pyStrip " SI ".data) ∈ truthTokens ∨ pyStrip " SI ".data = "1".data)) :=
  ⟨rfl, by decide,
    parse_value_boolean_spec.1 ⟨"chiuso", 2, "boolean", 874⟩ " SI ".data true rfl (by decide)⟩

theorem parse_value_intv_nonneg {f : ClienteField} {raw : List Char} {n : Int}
    (hp : f.parse_value raw = .intv n) : 0 ≤ n := by
  by_cases h1 : f.field_type = "integer"
  · rw [parse_value_integer_spec f raw h1] at hp
    simp only [FieldValue.intv.injEq] at hp
    subst hp
    split
    · exact Int.natCast_nonneg _
    · exact le_refl 0
  · by_cases h2 : f.field_type = "boolean"
    · rw [parse_value_boolean_eq f raw h2] at hp; simp at hp
    · by_cases h3 : f.field_type = "date"
      · rw [parse_value_date_eq f raw h3] at hp; simp at hp
      · rw [parse_value_alpha_eq f raw h1 h2 h3] at hp; simp at hp

/-- Claim C9: every value an integer field decodes to is non-negative, both
for the field decoder in isolation and for every integer value appearing in
a decoded record. -/
theorem integer_values_nonneg :
    (∀ (f : ClienteField) (raw : List Char) (n : Int),
      f.parse_value raw = .intv n → 0 ≤ n) ∧
    (∀ (line : List Char) (pr : String × FieldValue) (n : Int),
      pr ∈ parse_record line → pr.2 = .intv n → 0 ≤ n) := by
  refine ⟨fun _ _ _ hp => parse_value_intv_nonneg hp, ?_⟩
  intro line pr n hmem hp
  unfold parse_record at hmem
  simp only [List.mem_map] at hmem
  obtain ⟨f, _, rfl⟩ := hmem
  exact parse_value_intv_nonneg hp

theorem integer_values_nonneg_witness :
    (⟨"id", 8, "integer", 1427⟩ : ClienteField).parse_value "00000008".data =
      .intv 8 ∧ (0 : Int) ≤ 8 :=
  ⟨by decide,
    integer_values_nonneg.1 ⟨"id", 8, "integer", 1427⟩ "00000008".data 8 (by decide)⟩

theorem parse_value_str_eq {f : ClienteField} {raw v : List Char}
    (hp : f.parse_value raw = .str v) : v = pyStrip raw := by
  by_cases h1 : f.field_type = "integer"
  · rw [parse_value_integer_spec f raw h1] at hp; simp at hp
  · by_cases h2 : f.field_type = "boolean"
    · rw [parse_value_boolean_eq f raw h2] at hp; simp at hp
    · by_cases h3 : f.field_type = "date"
      · rw [parse_value_date_eq f raw h3] at hp; simp at hp
      · rw [parse_value_alpha_eq f raw h1 h2 h3] at hp
        simp only [FieldValue.str.injEq] at hp
        exact hp.symm

/-- Claim C10: text-field decoding returns a trimmed string (no leading or
trailing whitespace) no longer than its input; hence every text value in a
decoded record is a trimmed string no longer than its field's declared
length. -/
theorem alpha_values_trimmed_bounded :
    (∀ (f : ClienteField) (raw v : List Char), f.parse_value raw = .str v →
      (∀ c, v.head? = some c → pyIsSpace c = false) ∧
      (∀ c, v.getLast? = some c → pyIsSpace c = false) ∧
      v.length ≤ raw.length) ∧
    (∀ (line : List Char) (pr : String × FieldValue) (v : List Char),
      pr ∈ parse_record line → pr.2 = FieldValue.str v →
      (∀ c, v.head? = some c → pyIsSpace c = false) ∧
      (∀ c, v.getLast? = some c → pyIsSpace c = false) ∧
      ∃ f ∈ readerFields, pr.1 = f.name ∧ v.length ≤ f.length) := by
  constructor
  · intro f raw v hp
    obtain rfl := parse_value_str_eq hp
    exact ⟨fun _ h => pyStrip_headq_false h, fun _ h => pyStrip_getLast_false h,
      pyStrip_length_le raw⟩
  · intro line pr v hmem hp
    unfold parse_record at hmem
    simp only [List.mem_map] at hmem
    obtain ⟨f, hf, rfl⟩ := hmem
    obtain rfl := parse_value_str_eq hp
    refine ⟨fun _ h => pyStrip_headq_false h, fun _ h => pyStrip_getLast_false h,
      f, hf, rfl, ?_⟩
    calc (pyStrip _).length
        ≤ (pySlice _ f.start_pos (f.start_pos + f.length)).length := pyStrip_length_le _
      _ ≤ f.length := by
          unfold pySlice
          rw [Nat.add_sub_cancel_left]
          exact List.length_take_le _ _

theorem alpha_values_trimmed_bounded_witness :
    (⟨"varie", 255, "alpha field", 1443⟩ : ClienteField).parse_value "  ciao  ".data =
      .str "ciao".data ∧
    ((∀ c, ("ciao".data).head? = some c → pyIsSpace c = false) ∧
     (∀ c, ("ciao".data).getLast? = some c → pyIsSpace c = false) ∧
     ("ciao".data).length ≤ ("  ciao  ".data).length) :=
  ⟨by decide,
    alpha_values_trimmed_bounded.1 ⟨"varie", 255, "alpha field", 1443⟩
      "  ciao  ".data "ciao".data (by decide)⟩

/-- Claim C5: date-field decoding strips surrounding whitespace and yields a
calendar date only from an 8-character all-digit trimmed value read as
YYYYMMDD whose calendar construction succeeds; any other input yields the
absent-value marker (and the embedded parser is total, so it never raises).
Concretely "20251231" decodes to 2025-12-31 and "202513XX" to the
absent-value marker. -/
theorem parse_value_date_spec :
    (∀ (f : ClienteField) (raw : List Char) (d : PyDate), f.field_type = "date" →
      f.parse_value raw = .datev (some d) →
        (pyStrip raw).length = 8 ∧ (pyStrip raw).all Char.isDigit = true ∧
        d = ⟨digitsToNat (pySlice (pyStrip raw) 0 4),
             digitsToNat (pySlice (pyStrip raw) 4 6),
             digitsToNat (pySlice (pyStrip raw) 6 8)⟩ ∧
        1 ≤ d.month ∧ d.month ≤ 12 ∧ 1 ≤ d.day ∧ d.day ≤ daysInMonth d.year d.month) ∧
    (∀ (f : ClienteField) (raw : List Char), f.field_type = "date" →
      ¬((pyStrip raw).length = 8 ∧ (pyStrip raw).all Char.isDigit = true ∧
        validDate (digitsToNat (pySlice (pyStrip raw) 0 4))
                  (digitsToNat (pySlice (pyStrip raw) 4 6))
                  (digitsToNat (pySlice (pyStrip raw) 6 8)) = true) →
      f.parse_value raw = .datev none) ∧
    (⟨"scadenza_bonus", 8, "date", 944⟩ : ClienteField).parse_value "20251231".data =
      .datev (some ⟨2025, 12, 31⟩) ∧
    (⟨"scadenza_bonus", 8, "date", 944⟩ : ClienteField).parse_value "202513XX".data =
      .datev none := by
  refine ⟨?_, ?_, by decide, by decide⟩
  · intro f raw d hf hp
    rw [parse_value_date_eq f raw hf] at hp
    simp only [FieldValue.datev.injEq] at hp
    by_cases hc : ((pyStrip raw).length == 8 && (pyStrip raw).all Char.isDigit) = true
    · rw [if_pos hc] at hp
      by_cases hv : validDate (digitsToNat (pySlice (pyStrip raw) 0 4))
          (digitsToNat (pySlice (pyStrip raw) 4 6))
          (digitsToNat (pySlice (pyStrip raw) 6 8)) = true
      · rw [if_pos hv] at hp
        simp only [Option.some_inj] at hp
        subst hp
        simp only [Bool.and_eq_true, beq_iff_eq] at hc
        unfold validDate at hv
        simp only [Bool.and_eq_true, decide_eq_true_eq] at hv
        exact ⟨hc.1, hc.2, rfl, hv.1.1.1.2, hv.1.1.2, hv.1.2, hv.2⟩
      · rw [if_neg hv] at hp
        simp at hp
    · rw [if_neg hc] at hp
      simp at hp
  · intro f raw hf hno
    rw [parse_value_date_eq f raw hf]
    by_cases hc : ((pyStrip raw).length == 8 && (pyStrip raw).all Char.isDigit) = true
    · rw [if_pos hc]
      simp only [Bool.and_eq_true, beq_iff_eq] at hc
      have hv : ¬validDate (digitsToNat (pySlice (pyStrip raw) 0 4))
          (digitsToNat (pySlice (pyStrip raw) 4 6))
          (digitsToNat (pySlice (pyStrip raw) 6 8)) = true := by
        intro hv
        exact hno ⟨hc.1, hc.2, hv⟩
      simp only [if_neg hv]
    · rw [if_neg hc]

theorem parse_value_date_spec_witness :
    (⟨"scadenza_bonus", 8, "date", 944⟩ : ClienteField).field_type = "date" ∧
    (⟨"scadenza_bonus", 8, "date", 944⟩ : ClienteField).parse_value "20251231".data =
      .datev (some ⟨2025, 12, 31⟩) ∧
    ((pyStrip "20251231".data).length = 8 ∧
     (pyStrip "20251231".data).all Char.isDigit = true ∧
     (⟨2025, 12, 31⟩ : PyDate) = ⟨digitsToNat (pySlice (pyStrip "20251231".data) 0 4),
        digitsToNat (pySlice (pyStrip "20251231".data) 4 6),
        digitsToNat (pySlice (pyStrip "20251231".data) 6 8)⟩ ∧
     1 ≤ (⟨2025, 12, 31⟩ : PyDate).month ∧ (⟨2025, 12, 31⟩ : PyDate).month ≤ 12 ∧
     1 ≤ (⟨2025, 12, 31⟩ : PyDate).day ∧
     (⟨2025, 12, 31⟩ : PyDate).day ≤
       daysInMonth (⟨2025, 12, 31⟩ : PyDate).year (⟨2025, 12, 31⟩ : PyDate).month) :=
  ⟨rfl, by decide,
    parse_value_date_spec.1 ⟨"scadenza_bonus", 8, "date", 944⟩ "20251231".data
      ⟨2025, 12, 31⟩ rfl (by decide)⟩

theorem pyLjust_length (l : List Char) (n : Nat) :
    (pyLjust l n).length = max l.length n := by
  unfold pyLjust
  rw [List.length_append, List.length_replicate]
  omega

/-- Claim C4: decoding a line shorter than the record length right-pads it
with spaces to exactly the record length (the original line is kept as a
prefix, never truncated) and yields the same record as decoding the
explicitly padded line; the embedded decoder is total, so it never raises. -/
theorem parse_record_pad_spec (line : List Char) (h : line.length < record_length) :
    parse_record line = parse_record (pyLjust line record_length) ∧
    line <+: pyLjust line record_length := by
  constructor
  · unfold parse_record
    rw [if_pos h, if_neg (by rw [pyLjust_length]; omega)]
  · exact ⟨_, rfl⟩

theorem parse_record_pad_spec_witness :
    ([] : List Char).length < record_length ∧
    (parse_record [] = parse_record (pyLjust [] record_length) ∧
     ([] : List Char) <+: pyLjust [] record_length) :=
  ⟨by decide, parse_record_pad_spec [] (by decide)⟩

set_option maxRecDepth 100000 in
/-- Claim C8: `validate_record_length` is true exactly when the
terminator-stripped line has length `record_length` (which is 1698); on a
line 10 characters short it returns false, while `parse_record` on any line
still produces a record carrying every specified field name in order. -/
theorem validate_length_spec :
    (∀ line : List Char, validate_record_length line = true ↔
      (pyRstripNL line).length = record_length) ∧
    record_length = 1698 ∧
    validate_record_length (List.replicate 1688 'X') = false ∧
    (∀ line : List Char,
      (parse_record line).map Prod.fst = readerFields.map ClienteField.name) := by
  refine ⟨?_, by decide, by decide, ?_⟩
  · intro line
    unfold validate_record_length
    exact beq_iff_eq
  · intro line
    unfold parse_record
    rw [List.map_map]
    rfl

theorem read_file_go_fst :
    ∀ (n : Nat) (lines : List (List Char)),
      (read_file_go (fun l => .ok (parse_record l)) n lines).1 =
        ((lines.map pyRstripNL).filter
          (fun c => decide (pyStrip c ≠ []))).map parse_record := by
  intro n lines
  induction lines generalizing n with
  | nil => rfl
  | cons l ls ih =>
    by_cases hb : pyStrip (pyRstripNL l) = []
    · simp [read_file_go, List.filter_cons, hb, ih]
    · simp [read_file_go, List.filter_cons, hb, ih]

/-- Claim C7: blank lines (empty or whitespace-only after
terminator-stripping) are skipped and yield no record, every other line is
decoded in input order; a 5-line input whose third line is blank yields
exactly 4 records. -/
theorem read_file_skips_blank_lines :
    (∀ lines : List (List Char),
      (read_file lines).1 =
        ((lines.map pyRstripNL).filter
          (fun c => decide (pyStrip c ≠ []))).map parse_record) ∧
    (read_file ["riga1".data, "riga2".data, "   ".data, "riga4".data,
      "riga5".data]).1.length = 4 := by
  have hgen : ∀ lines : List (List Char),
      (read_file lines).1 =
        ((lines.map pyRstripNL).filter
          (fun c => decide (pyStrip c ≠ []))).map parse_record :=
    fun lines => read_file_go_fst 1 lines
  refine ⟨hgen, ?_⟩
  rw [hgen, List.length_map]
  decide

theorem read_file_go_eq (dec : List Char → Except String ClienteRecord) :
    ∀ (n : Nat) (lines : List (List Char)),
      read_file_go dec n lines =
        ((List.enumFrom n lines).filterMap (fun p =>
           if pyStrip (pyRstripNL p.2) ≠ [] then (dec (pyRstripNL p.2)).toOption
           else none),
         (List.enumFrom n lines).filterMap (fun p =>
           if pyStrip (pyRstripNL p.2) ≠ [] then
             match dec (pyRstripNL p.2) with
             | .ok _ => none
             | .error e => some (p.1, e)
           else none)) := by
  intro n lines
  induction lines generalizing n with
  | nil => rfl
  | cons l ls ih =>
    by_cases hb : pyStrip (pyRstripNL l) = []
    · simp [read_file_go, List.enumFrom, List.filterMap_cons, hb, ih]
    · cases hd : dec (pyRstripNL l) with
      | ok r =>
        simp [read_file_go, List.enumFrom, List.filterMap_cons, hb, hd, ih,
          Except.toOption]
      | error e =>
        simp [read_file_go, List.enumFrom, List.filterMap_cons, hb, hd, ih,
          Except.toOption]

/-- Claim C3: for every input and every decoder, the batch read returns, in
input order, the successfully decoded records of the non-blank lines
together with the per-line error notes (line number and message) of the
non-blank lines whose decode raised; a failing line is recorded and the
read continues, so the completed read always yields both lists. -/
theorem read_file_with_batch_spec :
    ∀ (dec : List Char → Except String ClienteRecord) (lines : List (List Char)),
      read_file_with dec lines = (batchRecords dec lines, batchErrors dec lines) := by
  intro dec lines
  unfold read_file_with batchRecords batchErrors
  exact read_file_go_eq dec 1 lines
